import Mathlib

/-!
Verification of the user-scripts execution coordinator of
`src/apps/experimental/routes/scripts/index.tsx` (the script console page).

The coordinator's mutable React state (`runningScripts`, `scriptStatuses`,
`executionTimes`, `consoleOutput`, `pendingInput`, `inputValue`,
`progressState`, `scriptStatusOverrides`) is embedded as an explicit record
`CoordState`.  JS `Map`s become association lists, the JS `Set` becomes a
duplicate-free insertion list.  Wall-clock data (`performance.now()`,
`Date.now()`, message ids/timestamps) is modelled by a logical clock that
advances on each console append; console entries keep only their message
text, since ids and display timestamps are presentation metadata.

A script's opaque `execute` function is modelled by the trace of context
calls it performs (`ScriptAction`) followed by how it settles
(`ScriptResult`): return normally or throw.  Promise resolution of a
pending prompt is modelled by returning the settled value from
`submitInput`/`cancelInput` alongside the new state.  Concurrent,
cooperatively-scheduled runs are modelled by a small-step event machine
(`stepEvent`), whose pieces are shared with the straight-line `runScript`.
-/

namespace UserScripts

/-- Model of `Map.set k v` on an association list: overwrite in place, append if new. -/
def mapSet {α : Type} : List (String × α) → String → α → List (String × α)
  | [], k, v => [(k, v)]
  | (k', v') :: rest, k, v =>
      if k' = k then (k, v) :: rest else (k', v') :: mapSet rest k v

/-- Model of `Map.get k` on an association list (`none` plays `undefined`). -/
def mapGet {α : Type} : List (String × α) → String → Option α
  | [], _ => none
  | (k', v') :: rest, k => if k' = k then some v' else mapGet rest k

/-- Model of `Map.delete k` on an association list. -/
def mapDelete {α : Type} : List (String × α) → String → List (String × α)
  | [], _ => []
  | (k', v') :: rest, k =>
      if k' = k then mapDelete rest k else (k', v') :: mapDelete rest k

/-- Model of `Set.add x` (`new Set(prev).add(x)`): no-op when present, else append. -/
def setInsert (l : List String) (x : String) : List String :=
  if x ∈ l then l else l ++ [x]

/-- Model of `Set.delete x`. -/
def setRemove (l : List String) (x : String) : List String :=
  l.filter (fun y => y ≠ x)

/-- The three interactive prompt kinds of `PendingInput.type`. -/
inductive PromptKind
  | input
  | confirm
  | select
deriving DecidableEq, Repr

/-- The `ScriptStatus` union type of the page. -/
inductive ScriptStatus
  | idle
  | running
  | success
  | error
  | skipped
  | waiting
deriving DecidableEq, Repr

/-- A value of `scriptStatusOverrides`: `'skip' | 'fail'`. -/
inductive OverrideKind
  | skip
  | fail
deriving DecidableEq, Repr

/-- A `ConsoleMessage`, reduced to its text (id/timestamp are wall-clock
presentation metadata). -/
structure ConsoleMessage where
  message : String
deriving DecidableEq, Repr

/-- The `PendingInput` record; the stored `resolve` callback is modelled by
`submitInput`/`cancelInput` returning the settled value. -/
structure PendingInput where
  scriptId : String
  prompt : String
  kind : PromptKind
  options : List (String × String)
deriving DecidableEq, Repr

/-- The `ProgressState` record. -/
structure ProgressState where
  scriptId : String
  message : String
  percent : Int
deriving DecidableEq, Repr

/-- Model of `toLowerCase()`: ASCII lower-casing, written by explicit recursion
over the character list so that it computes by kernel reduction. -/
def strToLower (s : String) : String := ⟨s.data.map Char.toLower⟩

/-- A value a prompt's promise can settle with (`string | boolean`). -/
inductive SettledValue
  | str (s : String)
  | bool (b : Bool)
deriving DecidableEq, Repr

/-- One call a script body makes into its `ScriptContext`.  `requestInput`
covers `input`/`confirm`/`select` (the promise the script receives is not
modelled here; a body that settles while its prompt is open models a script
abandoning its own prompt). -/
inductive ScriptAction
  | log (message : String)
  | progress (message : String) (percent : Int)
  | skip (reason : Option String)
  | fail (reason : Option String)
  | requestInput (prompt : String) (kind : PromptKind)
      (options : List (String × String))
deriving DecidableEq, Repr

/-- How `execute` settles: normal return, or a thrown `Error` with message. -/
inductive ScriptResult
  | ret
  | thrown (message : String)
deriving DecidableEq, Repr

/-- The observable behaviour of a script's `execute` function. -/
structure ScriptBody where
  actions : List ScriptAction
  result : ScriptResult
deriving DecidableEq, Repr

/-- A registry entry: id plus the display name from its metadata. -/
structure Script where
  id : String
  name : String
deriving DecidableEq, Repr

/-- Book-keeping for one in-flight `runScript` invocation in the small-step
machine: captured start time and what remains of the body. -/
structure RunState where
  startClock : Nat
  actions : List ScriptAction
  result : ScriptResult
deriving DecidableEq, Repr

/-- The coordinator's state: the component's React state plus the
`scriptStatusOverrides` ref and the in-flight runs. -/
structure CoordState where
  runningScripts : List String
  scriptStatuses : List (String × ScriptStatus)
  executionTimes : List (String × Nat)
  consoleOutput : List (String × List ConsoleMessage)
  pendingInput : Option PendingInput
  inputValue : String
  progressState : Option ProgressState
  scriptStatusOverrides : List (String × OverrideKind)
  activeRuns : List (String × RunState)
  clock : Nat
deriving DecidableEq, Repr

/-- The empty initial state of the page. -/
def initState : CoordState :=
  { runningScripts := []
    scriptStatuses := []
    executionTimes := []
    consoleOutput := []
    pendingInput := none
    inputValue := ""
    progressState := none
    scriptStatusOverrides := []
    activeRuns := []
    clock := 0 }

/-- A script's status, defaulting to `idle` when the map has no entry. -/
def statusOf (st : CoordState) (id : String) : ScriptStatus :=
  (mapGet st.scriptStatuses id).getD .idle

/-- A script's console transcript (`newMap.get(scriptId) || []`). -/
def consoleFor (st : CoordState) (id : String) : List ConsoleMessage :=
  (mapGet st.consoleOutput id).getD []

/-- The `log` callback: append one message to the script's console.  The
logical clock advances, standing in for the wall-clock timestamp. -/
def logMsg (st : CoordState) (scriptId message : String) : CoordState :=
  { st with
      consoleOutput :=
        mapSet st.consoleOutput scriptId (consoleFor st scriptId ++ [⟨message⟩])
      clock := st.clock + 1 }

/-- The `handleUserInput` callback: log the prompt, set the script's status to `waiting`,
and store the (one, system-wide) `PendingInput` record. -/
def handleUserInput (st : CoordState) (scriptId prompt : String)
    (kind : PromptKind) (options : List (String × String)) : CoordState :=
  let st := logMsg st scriptId prompt
  let st :=
    { st with scriptStatuses := mapSet st.scriptStatuses scriptId .waiting }
  { st with pendingInput := some ⟨scriptId, prompt, kind, options⟩ }

/-- The `submitInput(value?)` callback.  Returns the new state together with the value
the pending promise was resolved with (`none` when there was no pending
input and the call returned early). -/
def submitInput (st : CoordState) (value : Option String) :
    CoordState × Option SettledValue :=
  match st.pendingInput with
  | none => (st, none)
  | some p =>
      let finalValue := value.getD st.inputValue
      let st1 :=
        if p.kind = .input ∨ p.kind = .select then
          logMsg st p.scriptId
            (if finalValue = "" then "(empty)" else finalValue)
        else
          logMsg st p.scriptId
            (if strToLower finalValue == "yes" then "Yes" else "No")
      let settled :=
        if p.kind = .input ∨ p.kind = .select then
          SettledValue.str finalValue
        else
          SettledValue.bool (strToLower finalValue == "yes")
      let st2 :=
        { st1 with
            scriptStatuses := mapSet st1.scriptStatuses p.scriptId .running }
      ({ st2 with pendingInput := none, inputValue := "" }, some settled)

/-- The `cancelInput()` callback.  Logs the warning, settles the promise with `''` for
`input` and `false` otherwise (the source's `type === 'input' ? '' : false`,
so a `select` prompt also gets `false`), reverts the status to `running`
and clears the pending input. -/
def cancelInput (st : CoordState) : CoordState × Option SettledValue :=
  match st.pendingInput with
  | none => (st, none)
  | some p =>
      let st := logMsg st p.scriptId "W: User cancelled input"
      let settled :=
        if p.kind = .input then SettledValue.str "" else SettledValue.bool false
      let st :=
        { st with
            scriptStatuses := mapSet st.scriptStatuses p.scriptId .running }
      ({ st with pendingInput := none, inputValue := "" }, some settled)

/-- The `context.progress` closure: store the progress with the percent
clamped by `Math.min(100, Math.max(0, percent))`. -/
def contextProgress (st : CoordState) (scriptId message : String)
    (percent : Int) : CoordState :=
  { st with
      progressState := some ⟨scriptId, message, min 100 (max 0 percent)⟩ }

/-- The `context.skip` closure: record the override, log when given a reason. -/
def contextSkip (st : CoordState) (scriptId : String)
    (reason : Option String) : CoordState :=
  let st :=
    { st with
        scriptStatusOverrides :=
          mapSet st.scriptStatusOverrides scriptId .skip }
  match reason with
  | some r => logMsg st scriptId ("I: Skipped: " ++ r)
  | none => st

/-- The `context.fail` closure: record the override, log when given a reason. -/
def contextFail (st : CoordState) (scriptId : String)
    (reason : Option String) : CoordState :=
  let st :=
    { st with
        scriptStatusOverrides :=
          mapSet st.scriptStatusOverrides scriptId .fail }
  match reason with
  | some r => logMsg st scriptId ("E: Failed: " ++ r)
  | none => st

/-- Dispatch one context call of a running script body. -/
def runAction (scriptId : String) (st : CoordState) (a : ScriptAction) :
    CoordState :=
  match a with
  | .log m => logMsg st scriptId m
  | .progress m p => contextProgress st scriptId m p
  | .skip r => contextSkip st scriptId r
  | .fail r => contextFail st scriptId r
  | .requestInput prompt kind opts =>
      handleUserInput st scriptId prompt kind opts

/-- First admission guard: the id is already in the running set. -/
def rejectRunning (st : CoordState) (id : String) : Bool :=
  st.runningScripts.contains id

/-- Second admission guard: another script holds the pending input. -/
def rejectOtherWaiting (st : CoordState) (id : String) : Bool :=
  match st.pendingInput with
  | some p => p.scriptId != id
  | none => false

/-- Both admission checks of `runScript` pass. -/
def admits (st : CoordState) (id : String) : Bool :=
  !rejectRunning st id && !rejectOtherWaiting st id

/-- The admission side effects of `runScript`: clear any stale override,
add to the running set, mark `running`, reset the console, log the
starting line.  (The start time is the clock before these effects.) -/
def admitEffects (st : CoordState) (s : Script) : CoordState :=
  let st :=
    { st with
        scriptStatusOverrides := mapDelete st.scriptStatusOverrides s.id }
  let st := { st with runningScripts := setInsert st.runningScripts s.id }
  let st :=
    { st with scriptStatuses := mapSet st.scriptStatuses s.id .running }
  let st := { st with consoleOutput := mapSet st.consoleOutput s.id [] }
  logMsg st s.id ("Starting script: " ++ s.name)

/-- Outcome classification after `execute` settles: thrown error beats the
override map, whose single slot is then matched `skip` before `fail`. -/
def classifyOutcome (st : CoordState) (scriptId : String)
    (result : ScriptResult) : CoordState :=
  match result with
  | .thrown m =>
      let st := logMsg st scriptId ("E: Error: " ++ m)
      { st with scriptStatuses := mapSet st.scriptStatuses scriptId .error }
  | .ret =>
      match mapGet st.scriptStatusOverrides scriptId with
      | some .skip =>
          let st := logMsg st scriptId "I: Script skipped"
          { st with
              scriptStatuses := mapSet st.scriptStatuses scriptId .skipped }
      | some .fail =>
          let st := logMsg st scriptId "E: Script failed"
          { st with
              scriptStatuses := mapSet st.scriptStatuses scriptId .error }
      | none =>
          let st := logMsg st scriptId "S: Script completed successfully"
          { st with
              scriptStatuses := mapSet st.scriptStatuses scriptId .success }

/-- The `finally` block of `runScript`: record elapsed time, leave the
running set, clear a pending input or progress state owned by this id,
reset the typed value, drop the override flag. -/
def cleanup (st : CoordState) (scriptId : String) (startClock : Nat) :
    CoordState :=
  let st :=
    { st with
        executionTimes :=
          mapSet st.executionTimes scriptId (st.clock - startClock) }
  let st := { st with runningScripts := setRemove st.runningScripts scriptId }
  let st :=
    { st with
        pendingInput :=
          match st.pendingInput with
          | some p => if p.scriptId = scriptId then none else some p
          | none => none }
  let st := { st with inputValue := "" }
  let st :=
    { st with
        progressState :=
          match st.progressState with
          | some pr => if pr.scriptId = scriptId then none else some pr
          | none => none }
  { st with
      scriptStatusOverrides := mapDelete st.scriptStatusOverrides scriptId }

/-- The `runScript` function, straight-line: admission checks (each rejection only logs
its warning), then admission effects, the whole body, classification and
cleanup.  This is the behaviour of one run with no interleaved UI events. -/
def runScript (st : CoordState) (s : Script) (b : ScriptBody) : CoordState :=
  if rejectRunning st s.id then
    logMsg st s.id "W: Script is already running"
  else if rejectOtherWaiting st s.id then
    logMsg st s.id "W: Another script is waiting for input"
  else
    let startClock := st.clock
    let st := admitEffects st s
    let st := b.actions.foldl (runAction s.id) st
    let st := classifyOutcome st s.id b.result
    cleanup st s.id startClock

/-- One UI-level event: a run request, one context call of an in-flight
script, the settling of an in-flight script whose body is exhausted, the
user submitting, cancelling or typing into the prompt field. -/
inductive UEvent
  | runReq (s : Script) (b : ScriptBody)
  | scriptStep (id : String)
  | settle (id : String)
  | submit (v : Option String)
  | cancel
  | typeInput (s : String)
deriving DecidableEq, Repr

/-- Small-step semantics of the page: the same coordinator pieces as
`runScript`, with the body advanced one context call at a time so that
runs of different scripts can interleave. -/
def stepEvent (st : CoordState) (e : UEvent) : CoordState :=
  match e with
  | .runReq s b =>
      if rejectRunning st s.id then
        logMsg st s.id "W: Script is already running"
      else if rejectOtherWaiting st s.id then
        logMsg st s.id "W: Another script is waiting for input"
      else
        let startClock := st.clock
        let st := admitEffects st s
        { st with
            activeRuns :=
              mapSet st.activeRuns s.id ⟨startClock, b.actions, b.result⟩ }
  | .scriptStep id =>
      match mapGet st.activeRuns id with
      | some r =>
          match r.actions with
          | [] => st
          | a :: rest =>
              let st := runAction id st a
              { st with
                  activeRuns :=
                    mapSet st.activeRuns id ⟨r.startClock, rest, r.result⟩ }
      | none => st
  | .settle id =>
      match mapGet st.activeRuns id with
      | some r =>
          if r.actions = [] then
            let st := classifyOutcome st id r.result
            let st := cleanup st id r.startClock
            { st with activeRuns := mapDelete st.activeRuns id }
          else st
      | none => st
  | .submit v => (submitInput st v).1
  | .cancel => (cancelInput st).1
  | .typeInput s => { st with inputValue := s }

/-- The state reached from `st` by a sequence of UI events. -/
def reach (st : CoordState) (evs : List UEvent) : CoordState :=
  evs.foldl stepEvent st

/-- The value the single-slot override map holds after one context call:
`skip`/`fail` overwrite it, every other call leaves it alone. -/
def overrideStep (o : Option OverrideKind) : ScriptAction → Option OverrideKind
  | .skip _ => some .skip
  | .fail _ => some .fail
  | _ => o

/-- Whether an action is a `skip` call. -/
def isSkipAct : ScriptAction → Bool
  | .skip _ => true
  | _ => false

/-- Whether an action is a `fail` call. -/
def isFailAct : ScriptAction → Bool
  | .fail _ => true
  | _ => false

/-- Whether an action is an outcome-override (`skip` or `fail`) call. -/
def isOverrideAct : ScriptAction → Bool
  | .skip _ => true
  | .fail _ => true
  | _ => false

/-- The console entries one context call appends to the calling script's
transcript. -/
def actionLog : ScriptAction → List ConsoleMessage
  | .log m => [⟨m⟩]
  | .progress _ _ => []
  | .skip (some r) => [⟨"I: Skipped: " ++ r⟩]
  | .skip none => []
  | .fail (some r) => [⟨"E: Failed: " ++ r⟩]
  | .fail none => []
  | .requestInput prompt _ _ => [⟨prompt⟩]

/-- The console entries a whole body appends, in order. -/
def actionLogs : List ScriptAction → List ConsoleMessage
  | [] => []
  | a :: rest => actionLog a ++ actionLogs rest

/-- The status `classifyOutcome` assigns, as a function of the override
slot and the way `execute` settled. -/
def classifiedStatus (ov : Option OverrideKind) : ScriptResult → ScriptStatus
  | .thrown _ => .error
  | .ret =>
      match ov with
      | some .skip => .skipped
      | some .fail => .error
      | none => .success

/-- The log line `classifyOutcome` appends. -/
def classifiedLine (ov : Option OverrideKind) : ScriptResult → String
  | .thrown m => "E: Error: " ++ m
  | .ret =>
      match ov with
      | some .skip => "I: Script skipped"
      | some .fail => "E: Script failed"
      | none => "S: Script completed successfully"

/-! ### Association-list and set lemmas -/

theorem mapGet_set {α : Type} (m : List (String × α)) (k j : String) (v : α) :
    mapGet (mapSet m k v) j = if j = k then some v else mapGet m j := by
  induction m with
  | nil =>
      by_cases h : j = k
      · simp [mapSet, mapGet, h]
      · simp [mapSet, mapGet, h, Ne.symm h]
  | cons hd tl ih =>
      obtain ⟨k', v'⟩ := hd
      by_cases hk : k' = k
      · by_cases hj : j = k
        · simp [mapSet, mapGet, hk, hj]
        · simp [mapSet, mapGet, hk, hj, Ne.symm hj]
      · by_cases hj : k' = j
        · have hjk : ¬ j = k := fun hc => hk (hj.trans hc)
          simp [mapSet, mapGet, hk, hj, hjk]
        · simp [mapSet, mapGet, hk, hj, ih]

theorem mapGet_delete {α : Type} (m : List (String × α)) (k j : String) :
    mapGet (mapDelete m k) j = if j = k then none else mapGet m j := by
  induction m with
  | nil => simp [mapDelete, mapGet]
  | cons hd tl ih =>
      obtain ⟨k', v'⟩ := hd
      by_cases hk : k' = k
      · by_cases hj : j = k
        · subst hj; simp [mapDelete, mapGet, hk, ih]
        · simp [mapDelete, mapGet, hk, hj, ih, Ne.symm hj]
      · by_cases hj : k' = j
        · have hjk : ¬ j = k := fun hc => hk (hj.trans hc)
          simp [mapDelete, mapGet, hk, hj, hjk]
        · simp [mapDelete, mapGet, hk, hj, ih]

theorem mem_setInsert (l : List String) (x y : String) :
    y ∈ setInsert l x ↔ y ∈ l ∨ y = x := by
  unfold setInsert
  split_ifs with h
  · constructor
    · exact Or.inl
    · rintro (hy | rfl) <;> assumption
  · simp

theorem mem_setRemove (l : List String) (x y : String) :
    y ∈ setRemove l x ↔ y ∈ l ∧ y ≠ x := by
  simp [setRemove, List.mem_filter]

/-! ### Frame lemmas for the coordinator operations -/

theorem logMsg_scriptStatuses (st : CoordState) (i m : String) :
    (logMsg st i m).scriptStatuses = st.scriptStatuses := rfl

theorem logMsg_pendingInput (st : CoordState) (i m : String) :
    (logMsg st i m).pendingInput = st.pendingInput := rfl

theorem logMsg_runningScripts (st : CoordState) (i m : String) :
    (logMsg st i m).runningScripts = st.runningScripts := rfl

theorem logMsg_activeRuns (st : CoordState) (i m : String) :
    (logMsg st i m).activeRuns = st.activeRuns := rfl

theorem logMsg_executionTimes (st : CoordState) (i m : String) :
    (logMsg st i m).executionTimes = st.executionTimes := rfl

theorem logMsg_progressState (st : CoordState) (i m : String) :
    (logMsg st i m).progressState = st.progressState := rfl

theorem logMsg_overrides (st : CoordState) (i m : String) :
    (logMsg st i m).scriptStatusOverrides = st.scriptStatusOverrides := rfl

theorem logMsg_inputValue (st : CoordState) (i m : String) :
    (logMsg st i m).inputValue = st.inputValue := rfl

theorem statusOf_logMsg (st : CoordState) (i m j : String) :
    statusOf (logMsg st i m) j = statusOf st j := rfl

theorem consoleFor_logMsg (st : CoordState) (i m j : String) :
    consoleFor (logMsg st i m) j =
      if j = i then consoleFor st i ++ [⟨m⟩] else consoleFor st j := by
  simp only [consoleFor, logMsg, mapGet_set]
  split_ifs <;> simp

theorem handleUserInput_pendingInput (st : CoordState) (i pr : String)
    (k : PromptKind) (o : List (String × String)) :
    (handleUserInput st i pr k o).pendingInput = some ⟨i, pr, k, o⟩ := rfl

theorem handleUserInput_scriptStatuses (st : CoordState) (i pr : String)
    (k : PromptKind) (o : List (String × String)) :
    (handleUserInput st i pr k o).scriptStatuses =
      mapSet st.scriptStatuses i .waiting := rfl

theorem handleUserInput_runningScripts (st : CoordState) (i pr : String)
    (k : PromptKind) (o : List (String × String)) :
    (handleUserInput st i pr k o).runningScripts = st.runningScripts := rfl

theorem handleUserInput_activeRuns (st : CoordState) (i pr : String)
    (k : PromptKind) (o : List (String × String)) :
    (handleUserInput st i pr k o).activeRuns = st.activeRuns := rfl

theorem handleUserInput_executionTimes (st : CoordState) (i pr : String)
    (k : PromptKind) (o : List (String × String)) :
    (handleUserInput st i pr k o).executionTimes = st.executionTimes := rfl

theorem handleUserInput_progressState (st : CoordState) (i pr : String)
    (k : PromptKind) (o : List (String × String)) :
    (handleUserInput st i pr k o).progressState = st.progressState := rfl

theorem handleUserInput_overrides (st : CoordState) (i pr : String)
    (k : PromptKind) (o : List (String × String)) :
    (handleUserInput st i pr k o).scriptStatusOverrides =
      st.scriptStatusOverrides := rfl

theorem handleUserInput_inputValue (st : CoordState) (i pr : String)
    (k : PromptKind) (o : List (String × String)) :
    (handleUserInput st i pr k o).inputValue = st.inputValue := rfl

theorem consoleFor_handleUserInput (st : CoordState) (i pr : String)
    (k : PromptKind) (o : List (String × String)) (j : String) :
    consoleFor (handleUserInput st i pr k o) j =
      if j = i then consoleFor st i ++ [⟨pr⟩] else consoleFor st j := by
  have : consoleFor (handleUserInput st i pr k o) j =
      consoleFor (logMsg st i pr) j := rfl
  rw [this, consoleFor_logMsg]

theorem contextProgress_progressState (st : CoordState) (i m : String)
    (p : Int) :
    (contextProgress st i m p).progressState =
      some ⟨i, m, min 100 (max 0 p)⟩ := rfl

theorem contextProgress_frame (st : CoordState) (i m : String) (p : Int) :
    (contextProgress st i m p).runningScripts = st.runningScripts ∧
    (contextProgress st i m p).scriptStatuses = st.scriptStatuses ∧
    (contextProgress st i m p).executionTimes = st.executionTimes ∧
    (contextProgress st i m p).consoleOutput = st.consoleOutput ∧
    (contextProgress st i m p).pendingInput = st.pendingInput ∧
    (contextProgress st i m p).inputValue = st.inputValue ∧
    (contextProgress st i m p).scriptStatusOverrides =
      st.scriptStatusOverrides ∧
    (contextProgress st i m p).activeRuns = st.activeRuns :=
  ⟨rfl, rfl, rfl, rfl, rfl, rfl, rfl, rfl⟩

theorem contextSkip_overrides (st : CoordState) (i : String)
    (r : Option String) :
    (contextSkip st i r).scriptStatusOverrides =
      mapSet st.scriptStatusOverrides i .skip := by
  cases r <;> rfl

theorem contextSkip_scriptStatuses (st : CoordState) (i : String)
    (r : Option String) :
    (contextSkip st i r).scriptStatuses = st.scriptStatuses := by
  cases r <;> rfl

theorem contextSkip_pendingInput (st : CoordState) (i : String)
    (r : Option String) :
    (contextSkip st i r).pendingInput = st.pendingInput := by
  cases r <;> rfl

theorem contextSkip_runningScripts (st : CoordState) (i : String)
    (r : Option String) :
    (contextSkip st i r).runningScripts = st.runningScripts := by
  cases r <;> rfl

theorem contextSkip_activeRuns (st : CoordState) (i : String)
    (r : Option String) :
    (contextSkip st i r).activeRuns = st.activeRuns := by
  cases r <;> rfl

theorem contextSkip_progressState (st : CoordState) (i : String)
    (r : Option String) :
    (contextSkip st i r).progressState = st.progressState := by
  cases r <;> rfl

theorem contextSkip_executionTimes (st : CoordState) (i : String)
    (r : Option String) :
    (contextSkip st i r).executionTimes = st.executionTimes := by
  cases r <;> rfl

theorem contextSkip_inputValue (st : CoordState) (i : String)
    (r : Option String) :
    (contextSkip st i r).inputValue = st.inputValue := by
  cases r <;> rfl

theorem contextFail_overrides (st : CoordState) (i : String)
    (r : Option String) :
    (contextFail st i r).scriptStatusOverrides =
      mapSet st.scriptStatusOverrides i .fail := by
  cases r <;> rfl

theorem contextFail_scriptStatuses (st : CoordState) (i : String)
    (r : Option String) :
    (contextFail st i r).scriptStatuses = st.scriptStatuses := by
  cases r <;> rfl

theorem contextFail_pendingInput (st : CoordState) (i : String)
    (r : Option String) :
    (contextFail st i r).pendingInput = st.pendingInput := by
  cases r <;> rfl

theorem contextFail_runningScripts (st : CoordState) (i : String)
    (r : Option String) :
    (contextFail st i r).runningScripts = st.runningScripts := by
  cases r <;> rfl

theorem contextFail_activeRuns (st : CoordState) (i : String)
    (r : Option String) :
    (contextFail st i r).activeRuns = st.activeRuns := by
  cases r <;> rfl

theorem contextFail_progressState (st : CoordState) (i : String)
    (r : Option String) :
    (contextFail st i r).progressState = st.progressState := by
  cases r <;> rfl

theorem contextFail_executionTimes (st : CoordState) (i : String)
    (r : Option String) :
    (contextFail st i r).executionTimes = st.executionTimes := by
  cases r <;> rfl

theorem contextFail_inputValue (st : CoordState) (i : String)
    (r : Option String) :
    (contextFail st i r).inputValue = st.inputValue := by
  cases r <;> rfl

theorem consoleFor_contextSkip (st : CoordState) (i : String)
    (r : Option String) (j : String) :
    consoleFor (contextSkip st i r) j =
      if j = i then consoleFor st i ++ actionLog (.skip r)
      else consoleFor st j := by
  cases r with
  | none =>
      split_ifs with h
      · subst h; simp [contextSkip, actionLog, consoleFor]
      · rfl
  | some x =>
      have h1 :
          consoleFor (contextSkip st i (some x)) j =
            consoleFor
              (logMsg
                { st with
                    scriptStatusOverrides :=
                      mapSet st.scriptStatusOverrides i .skip }
                i ("I: Skipped: " ++ x)) j := rfl
      rw [h1, consoleFor_logMsg]
      simp [consoleFor, actionLog]

theorem consoleFor_contextFail (st : CoordState) (i : String)
    (r : Option String) (j : String) :
    consoleFor (contextFail st i r) j =
      if j = i then consoleFor st i ++ actionLog (.fail r)
      else consoleFor st j := by
  cases r with
  | none =>
      split_ifs with h
      · subst h; simp [contextFail, actionLog, consoleFor]
      · rfl
  | some x =>
      have h1 :
          consoleFor (contextFail st i (some x)) j =
            consoleFor
              (logMsg
                { st with
                    scriptStatusOverrides :=
                      mapSet st.scriptStatusOverrides i .fail }
                i ("E: Failed: " ++ x)) j := rfl
      rw [h1, consoleFor_logMsg]
      simp [consoleFor, actionLog]

theorem runAction_runningScripts (i : String) (st : CoordState)
    (a : ScriptAction) :
    (runAction i st a).runningScripts = st.runningScripts := by
  cases a with
  | log m => rfl
  | progress m p => rfl
  | skip r => exact contextSkip_runningScripts st i r
  | fail r => exact contextFail_runningScripts st i r
  | requestInput p k o => rfl

theorem runAction_activeRuns (i : String) (st : CoordState)
    (a : ScriptAction) :
    (runAction i st a).activeRuns = st.activeRuns := by
  cases a with
  | log m => rfl
  | progress m p => rfl
  | skip r => exact contextSkip_activeRuns st i r
  | fail r => exact contextFail_activeRuns st i r
  | requestInput p k o => rfl

theorem runAction_executionTimes (i : String) (st : CoordState)
    (a : ScriptAction) :
    (runAction i st a).executionTimes = st.executionTimes := by
  cases a with
  | log m => rfl
  | progress m p => rfl
  | skip r => exact contextSkip_executionTimes st i r
  | fail r => exact contextFail_executionTimes st i r
  | requestInput p k o => rfl

theorem runAction_overrides_self (i : String) (st : CoordState)
    (a : ScriptAction) :
    mapGet (runAction i st a).scriptStatusOverrides i =
      overrideStep (mapGet st.scriptStatusOverrides i) a := by
  cases a with
  | log m => rfl
  | progress m p => rfl
  | skip r =>
      show mapGet (contextSkip st i r).scriptStatusOverrides i = some .skip
      rw [contextSkip_overrides, mapGet_set]
      simp
  | fail r =>
      show mapGet (contextFail st i r).scriptStatusOverrides i = some .fail
      rw [contextFail_overrides, mapGet_set]
      simp
  | requestInput p k o => rfl

theorem consoleFor_runAction_self (i : String) (st : CoordState)
    (a : ScriptAction) :
    consoleFor (runAction i st a) i = consoleFor st i ++ actionLog a := by
  cases a with
  | log m => rw [show runAction i st (.log m) = logMsg st i m from rfl,
                 consoleFor_logMsg]; simp [actionLog]
  | progress m p => simp [runAction, contextProgress, consoleFor, actionLog]
  | skip r => rw [show runAction i st (.skip r) = contextSkip st i r from rfl,
                  consoleFor_contextSkip]; simp
  | fail r => rw [show runAction i st (.fail r) = contextFail st i r from rfl,
                  consoleFor_contextFail]; simp
  | requestInput p k o =>
      rw [show runAction i st (.requestInput p k o) =
            handleUserInput st i p k o from rfl,
          consoleFor_handleUserInput]
      simp [actionLog]

theorem foldActions_runningScripts (acts : List ScriptAction) (i : String)
    (st : CoordState) :
    (acts.foldl (runAction i) st).runningScripts = st.runningScripts := by
  induction acts generalizing st with
  | nil => rfl
  | cons a rest ih => rw [List.foldl_cons, ih, runAction_runningScripts]

theorem foldActions_activeRuns (acts : List ScriptAction) (i : String)
    (st : CoordState) :
    (acts.foldl (runAction i) st).activeRuns = st.activeRuns := by
  induction acts generalizing st with
  | nil => rfl
  | cons a rest ih => rw [List.foldl_cons, ih, runAction_activeRuns]

theorem foldActions_overrides_self (acts : List ScriptAction) (i : String)
    (st : CoordState) :
    mapGet (acts.foldl (runAction i) st).scriptStatusOverrides i =
      acts.foldl overrideStep (mapGet st.scriptStatusOverrides i) := by
  induction acts generalizing st with
  | nil => rfl
  | cons a rest ih =>
      rw [List.foldl_cons, List.foldl_cons, ih, runAction_overrides_self]

theorem consoleFor_foldActions_self (acts : List ScriptAction) (i : String)
    (st : CoordState) :
    consoleFor (acts.foldl (runAction i) st) i =
      consoleFor st i ++ actionLogs acts := by
  induction acts generalizing st with
  | nil => simp [actionLogs]
  | cons a rest ih =>
      rw [List.foldl_cons, ih, consoleFor_runAction_self]
      simp [actionLogs]

theorem classifyOutcome_scriptStatuses (st : CoordState) (i : String)
    (r : ScriptResult) :
    (classifyOutcome st i r).scriptStatuses =
      mapSet st.scriptStatuses i
        (classifiedStatus (mapGet st.scriptStatusOverrides i) r) := by
  cases r with
  | thrown m => rfl
  | ret =>
      rcases h : mapGet st.scriptStatusOverrides i with _ | k
      · simp [classifyOutcome, classifiedStatus, h, logMsg_scriptStatuses]
      · cases k <;>
          simp [classifyOutcome, classifiedStatus, h, logMsg_scriptStatuses]

theorem consoleFor_classifyOutcome (st : CoordState) (i : String)
    (r : ScriptResult) (j : String) :
    consoleFor (classifyOutcome st i r) j =
      if j = i then
        consoleFor st i ++
          [⟨classifiedLine (mapGet st.scriptStatusOverrides i) r⟩]
      else consoleFor st j := by
  cases r with
  | thrown m =>
      have h1 : consoleFor (classifyOutcome st i (.thrown m)) j =
          consoleFor (logMsg st i ("E: Error: " ++ m)) j := rfl
      rw [h1, consoleFor_logMsg]
      simp [classifiedLine]
  | ret =>
      rcases h : mapGet st.scriptStatusOverrides i with _ | k
      · simp only [classifyOutcome, h]
        rw [show consoleFor
              { logMsg st i "S: Script completed successfully" with
                  scriptStatuses :=
                    mapSet
                      (logMsg st i
                        "S: Script completed successfully").scriptStatuses
                      i .success } j =
            consoleFor (logMsg st i "S: Script completed successfully") j
            from rfl, consoleFor_logMsg]
        simp [classifiedLine, h]
      · cases k with
        | skip =>
            simp only [classifyOutcome, h]
            rw [show consoleFor
                  { logMsg st i "I: Script skipped" with
                      scriptStatuses :=
                        mapSet
                          (logMsg st i "I: Script skipped").scriptStatuses
                          i .skipped } j =
                consoleFor (logMsg st i "I: Script skipped") j
                from rfl, consoleFor_logMsg]
            simp [classifiedLine, h]
        | fail =>
            simp only [classifyOutcome, h]
            rw [show consoleFor
                  { logMsg st i "E: Script failed" with
                      scriptStatuses :=
                        mapSet
                          (logMsg st i "E: Script failed").scriptStatuses
                          i .error } j =
                consoleFor (logMsg st i "E: Script failed") j
                from rfl, consoleFor_logMsg]
            simp [classifiedLine, h]

theorem classifyOutcome_pendingInput (st : CoordState) (i : String)
    (r : ScriptResult) :
    (classifyOutcome st i r).pendingInput = st.pendingInput := by
  cases r with
  | thrown m => rfl
  | ret =>
      rcases h : mapGet st.scriptStatusOverrides i with _ | k
      · simp [classifyOutcome, h]; rfl
      · cases k <;> (simp [classifyOutcome, h]; rfl)

theorem classifyOutcome_runningScripts (st : CoordState) (i : String)
    (r : ScriptResult) :
    (classifyOutcome st i r).runningScripts = st.runningScripts := by
  cases r with
  | thrown m => rfl
  | ret =>
      rcases h : mapGet st.scriptStatusOverrides i with _ | k
      · simp [classifyOutcome, h]; rfl
      · cases k <;> (simp [classifyOutcome, h]; rfl)

theorem classifyOutcome_progressState (st : CoordState) (i : String)
    (r : ScriptResult) :
    (classifyOutcome st i r).progressState = st.progressState := by
  cases r with
  | thrown m => rfl
  | ret =>
      rcases h : mapGet st.scriptStatusOverrides i with _ | k
      · simp [classifyOutcome, h]; rfl
      · cases k <;> (simp [classifyOutcome, h]; rfl)

theorem classifyOutcome_activeRuns (st : CoordState) (i : String)
    (r : ScriptResult) :
    (classifyOutcome st i r).activeRuns = st.activeRuns := by
  cases r with
  | thrown m => rfl
  | ret =>
      rcases h : mapGet st.scriptStatusOverrides i with _ | k
      · simp [classifyOutcome, h]; rfl
      · cases k <;> (simp [classifyOutcome, h]; rfl)

theorem classifyOutcome_executionTimes (st : CoordState) (i : String)
    (r : ScriptResult) :
    (classifyOutcome st i r).executionTimes = st.executionTimes := by
  cases r with
  | thrown m => rfl
  | ret =>
      rcases h : mapGet st.scriptStatusOverrides i with _ | k
      · simp [classifyOutcome, h]; rfl
      · cases k <;> (simp [classifyOutcome, h]; rfl)

theorem classifyOutcome_overrides (st : CoordState) (i : String)
    (r : ScriptResult) :
    (classifyOutcome st i r).scriptStatusOverrides =
      st.scriptStatusOverrides := by
  cases r with
  | thrown m => rfl
  | ret =>
      rcases h : mapGet st.scriptStatusOverrides i with _ | k
      · simp [classifyOutcome, h]; rfl
      · cases k <;> (simp [classifyOutcome, h]; rfl)

theorem cleanup_executionTimes (st : CoordState) (i : String) (c : Nat) :
    (cleanup st i c).executionTimes =
      mapSet st.executionTimes i (st.clock - c) := rfl

theorem cleanup_runningScripts (st : CoordState) (i : String) (c : Nat) :
    (cleanup st i c).runningScripts = setRemove st.runningScripts i := rfl

theorem cleanup_pendingInput (st : CoordState) (i : String) (c : Nat) :
    (cleanup st i c).pendingInput =
      match st.pendingInput with
      | some p => if p.scriptId = i then none else some p
      | none => none := rfl

theorem cleanup_progressState (st : CoordState) (i : String) (c : Nat) :
    (cleanup st i c).progressState =
      match st.progressState with
      | some pr => if pr.scriptId = i then none else some pr
      | none => none := rfl

theorem cleanup_overrides (st : CoordState) (i : String) (c : Nat) :
    (cleanup st i c).scriptStatusOverrides =
      mapDelete st.scriptStatusOverrides i := rfl

theorem cleanup_scriptStatuses (st : CoordState) (i : String) (c : Nat) :
    (cleanup st i c).scriptStatuses = st.scriptStatuses := rfl

theorem cleanup_consoleOutput (st : CoordState) (i : String) (c : Nat) :
    (cleanup st i c).consoleOutput = st.consoleOutput := rfl

theorem cleanup_activeRuns (st : CoordState) (i : String) (c : Nat) :
    (cleanup st i c).activeRuns = st.activeRuns := rfl

theorem admitEffects_runningScripts (st : CoordState) (s : Script) :
    (admitEffects st s).runningScripts =
      setInsert st.runningScripts s.id := rfl

theorem admitEffects_scriptStatuses (st : CoordState) (s : Script) :
    (admitEffects st s).scriptStatuses =
      mapSet st.scriptStatuses s.id .running := rfl

theorem admitEffects_pendingInput (st : CoordState) (s : Script) :
    (admitEffects st s).pendingInput = st.pendingInput := rfl

theorem admitEffects_progressState (st : CoordState) (s : Script) :
    (admitEffects st s).progressState = st.progressState := rfl

theorem admitEffects_executionTimes (st : CoordState) (s : Script) :
    (admitEffects st s).executionTimes = st.executionTimes := rfl

theorem admitEffects_activeRuns (st : CoordState) (s : Script) :
    (admitEffects st s).activeRuns = st.activeRuns := rfl

theorem admitEffects_overrides (st : CoordState) (s : Script) :
    (admitEffects st s).scriptStatusOverrides =
      mapDelete st.scriptStatusOverrides s.id := rfl

theorem admits_iff (st : CoordState) (id : String) :
    admits st id = true ↔
      rejectRunning st id = false ∧ rejectOtherWaiting st id = false := by
  simp [admits]

theorem foldl_overrideStep_pure (acts : List ScriptAction)
    (o : Option OverrideKind) (h : ∀ a ∈ acts, isOverrideAct a = false) :
    acts.foldl overrideStep o = o := by
  induction acts generalizing o with
  | nil => rfl
  | cons a rest ih =>
      have ha := h a (List.mem_cons_self a rest)
      have hstep : overrideStep o a = o := by
        cases a with
        | skip r => simp [isOverrideAct] at ha
        | fail r => simp [isOverrideAct] at ha
        | log m => rfl
        | progress m p => rfl
        | requestInput p k os => rfl
      rw [List.foldl_cons, hstep]
      exact ih o (fun a' ha' => h a' (List.mem_cons_of_mem a ha'))

theorem foldl_overrideStep_keep_fail (acts : List ScriptAction)
    (h : ∀ a ∈ acts, isSkipAct a = false) :
    acts.foldl overrideStep (some .fail) = some .fail := by
  induction acts with
  | nil => rfl
  | cons a rest ih =>
      have ha := h a (List.mem_cons_self a rest)
      have hstep : overrideStep (some OverrideKind.fail) a =
          some OverrideKind.fail := by
        cases a with
        | skip r => simp [isSkipAct] at ha
        | fail r => rfl
        | log m => rfl
        | progress m p => rfl
        | requestInput p k os => rfl
      rw [List.foldl_cons, hstep]
      exact ih (fun a' ha' => h a' (List.mem_cons_of_mem a ha'))

theorem foldl_overrideStep_fail (acts : List ScriptAction)
    (o : Option OverrideKind) (hns : ∀ a ∈ acts, isSkipAct a = false)
    (x : Option String) (hf : ScriptAction.fail x ∈ acts) :
    acts.foldl overrideStep o = some .fail := by
  induction acts generalizing o with
  | nil => cases hf
  | cons a rest ih =>
      rcases List.mem_cons.mp hf with heq | hmem
      · rw [List.foldl_cons, ← heq]
        exact foldl_overrideStep_keep_fail rest
          (fun a' ha' => hns a' (List.mem_cons_of_mem a ha'))
      · rw [List.foldl_cons]
        exact ih (overrideStep o a)
          (fun a' ha' => hns a' (List.mem_cons_of_mem a ha')) hmem

theorem foldl_overrideStep_keep_skip (acts : List ScriptAction)
    (h : ∀ a ∈ acts, isFailAct a = false) :
    acts.foldl overrideStep (some .skip) = some .skip := by
  induction acts with
  | nil => rfl
  | cons a rest ih =>
      have ha := h a (List.mem_cons_self a rest)
      have hstep : overrideStep (some OverrideKind.skip) a =
          some OverrideKind.skip := by
        cases a with
        | fail r => simp [isFailAct] at ha
        | skip r => rfl
        | log m => rfl
        | progress m p => rfl
        | requestInput p k os => rfl
      rw [List.foldl_cons, hstep]
      exact ih (fun a' ha' => h a' (List.mem_cons_of_mem a ha'))

theorem foldl_overrideStep_skip (acts : List ScriptAction)
    (o : Option OverrideKind) (hnf : ∀ a ∈ acts, isFailAct a = false)
    (y : Option String) (hs : ScriptAction.skip y ∈ acts) :
    acts.foldl overrideStep o = some .skip := by
  induction acts generalizing o with
  | nil => cases hs
  | cons a rest ih =>
      rcases List.mem_cons.mp hs with heq | hmem
      · rw [List.foldl_cons, ← heq]
        exact foldl_overrideStep_keep_skip rest
          (fun a' ha' => hnf a' (List.mem_cons_of_mem a ha'))
      · rw [List.foldl_cons]
        exact ih (overrideStep o a)
          (fun a' ha' => hnf a' (List.mem_cons_of_mem a ha')) hmem

theorem consoleFor_admitEffects_self (st : CoordState) (s : Script) :
    consoleFor (admitEffects st s) s.id =
      [⟨"Starting script: " ++ s.name⟩] := by
  have h1 : admitEffects st s =
      logMsg
        { st with
            scriptStatusOverrides := mapDelete st.scriptStatusOverrides s.id
            runningScripts := setInsert st.runningScripts s.id
            scriptStatuses := mapSet st.scriptStatuses s.id .running
            consoleOutput := mapSet st.consoleOutput s.id [] }
        s.id ("Starting script: " ++ s.name) := rfl
  rw [h1, consoleFor_logMsg]
  simp [consoleFor, mapGet_set]

/-! ### Decomposition of a straight-line run -/

theorem runScript_rejected_running (st : CoordState) (s : Script)
    (b : ScriptBody) (h1 : rejectRunning st s.id = true) :
    runScript st s b = logMsg st s.id "W: Script is already running" := by
  simp [runScript, h1]

theorem runScript_rejected_waiting (st : CoordState) (s : Script)
    (b : ScriptBody) (h1 : rejectRunning st s.id = false)
    (h2 : rejectOtherWaiting st s.id = true) :
    runScript st s b =
      logMsg st s.id "W: Another script is waiting for input" := by
  simp [runScript, h1, h2]

theorem runScript_admitted (st : CoordState) (s : Script) (b : ScriptBody)
    (h1 : rejectRunning st s.id = false)
    (h2 : rejectOtherWaiting st s.id = false) :
    runScript st s b =
      cleanup
        (classifyOutcome
          (b.actions.foldl (runAction s.id) (admitEffects st s))
          s.id b.result)
        s.id st.clock := by
  simp [runScript, h1, h2]

theorem overrides_after_body (st : CoordState) (s : Script)
    (acts : List ScriptAction) :
    mapGet
        (acts.foldl (runAction s.id)
          (admitEffects st s)).scriptStatusOverrides s.id =
      acts.foldl overrideStep none := by
  rw [foldActions_overrides_self, admitEffects_overrides, mapGet_delete]
  simp

theorem statusOf_runScript_admitted (st : CoordState) (s : Script)
    (b : ScriptBody) (h1 : rejectRunning st s.id = false)
    (h2 : rejectOtherWaiting st s.id = false) :
    statusOf (runScript st s b) s.id =
      classifiedStatus (b.actions.foldl overrideStep none) b.result := by
  rw [runScript_admitted st s b h1 h2]
  simp only [statusOf, cleanup_scriptStatuses, classifyOutcome_scriptStatuses,
    overrides_after_body, mapGet_set, if_pos]
  rfl

theorem consoleFor_runScript_admitted (st : CoordState) (s : Script)
    (b : ScriptBody) (h1 : rejectRunning st s.id = false)
    (h2 : rejectOtherWaiting st s.id = false) :
    consoleFor (runScript st s b) s.id =
      ⟨"Starting script: " ++ s.name⟩ :: actionLogs b.actions ++
        [⟨classifiedLine (b.actions.foldl overrideStep none) b.result⟩] := by
  rw [runScript_admitted st s b h1 h2]
  have hclean : consoleFor
      (cleanup
        (classifyOutcome
          (b.actions.foldl (runAction s.id) (admitEffects st s))
          s.id b.result)
        s.id st.clock) s.id =
      consoleFor
        (classifyOutcome
          (b.actions.foldl (runAction s.id) (admitEffects st s))
          s.id b.result) s.id := rfl
  rw [hclean, consoleFor_classifyOutcome, if_pos rfl, overrides_after_body,
    consoleFor_foldActions_self, consoleFor_admitEffects_self]
  simp

theorem mem_actionLogs_of_fail (acts : List ScriptAction) (x : String)
    (hf : ScriptAction.fail (some x) ∈ acts) :
    (⟨"E: Failed: " ++ x⟩ : ConsoleMessage) ∈ actionLogs acts := by
  induction acts with
  | nil => cases hf
  | cons a rest ih =>
      rcases List.mem_cons.mp hf with heq | hmem
      · rw [← heq]
        simp [actionLogs, actionLog]
      · simp only [actionLogs, List.mem_append]
        exact Or.inr (ih hmem)

/-- C1: a call `runScript(S)` is rejected — only a warning line is appended to
S's console, and the statuses, running set, timing map, pending input,
progress state and override map are all left unchanged (so `execute` is
never invoked) — exactly when S is already in the running set or another
script's prompt is pending; otherwise the run is admitted: S's console
afterwards starts with the `Starting script:` line and an elapsed time has
been recorded for S. -/
theorem runScript_admission_control (st : CoordState) (s : Script)
    (b : ScriptBody) :
    (rejectRunning st s.id = true →
      consoleFor (runScript st s b) s.id =
        consoleFor st s.id ++ [⟨"W: Script is already running"⟩] ∧
      (runScript st s b).scriptStatuses = st.scriptStatuses ∧
      (runScript st s b).runningScripts = st.runningScripts ∧
      (runScript st s b).executionTimes = st.executionTimes ∧
      (runScript st s b).pendingInput = st.pendingInput ∧
      (runScript st s b).progressState = st.progressState ∧
      (runScript st s b).scriptStatusOverrides = st.scriptStatusOverrides ∧
      (runScript st s b).inputValue = st.inputValue ∧
      ∀ j, j ≠ s.id → consoleFor (runScript st s b) j = consoleFor st j) ∧
    (rejectRunning st s.id = false → rejectOtherWaiting st s.id = true →
      consoleFor (runScript st s b) s.id =
        consoleFor st s.id ++ [⟨"W: Another script is waiting for input"⟩] ∧
      (runScript st s b).scriptStatuses = st.scriptStatuses ∧
      (runScript st s b).runningScripts = st.runningScripts ∧
      (runScript st s b).executionTimes = st.executionTimes ∧
      (runScript st s b).pendingInput = st.pendingInput ∧
      (runScript st s b).progressState = st.progressState ∧
      (runScript st s b).scriptStatusOverrides = st.scriptStatusOverrides ∧
      (runScript st s b).inputValue = st.inputValue ∧
      ∀ j, j ≠ s.id → consoleFor (runScript st s b) j = consoleFor st j) ∧
    (admits st s.id = true →
      (consoleFor (runScript st s b) s.id).head? =
        some ⟨"Starting script: " ++ s.name⟩ ∧
      (mapGet (runScript st s b).executionTimes s.id).isSome = true) := by
  refine ⟨fun h1 => ?_, fun h1 h2 => ?_, fun hadm => ?_⟩
  · rw [runScript_rejected_running st s b h1]
    refine ⟨?_, rfl, rfl, rfl, rfl, rfl, rfl, rfl, fun j hj => ?_⟩
    · rw [consoleFor_logMsg, if_pos rfl]
    · rw [consoleFor_logMsg, if_neg hj]
  · rw [runScript_rejected_waiting st s b h1 h2]
    refine ⟨?_, rfl, rfl, rfl, rfl, rfl, rfl, rfl, fun j hj => ?_⟩
    · rw [consoleFor_logMsg, if_pos rfl]
    · rw [consoleFor_logMsg, if_neg hj]
  · obtain ⟨h1, h2⟩ := (admits_iff st s.id).mp hadm
    constructor
    · rw [consoleFor_runScript_admitted st s b h1 h2]
      rfl
    · rw [runScript_admitted st s b h1 h2, cleanup_executionTimes,
        mapGet_set, if_pos rfl]
      rfl

/-- Witness for C1 at concrete states: a rejected re-run of an
already-running script, a rejected run while another script's prompt is
pending, and an admitted run on the empty state. -/
theorem runScript_admission_control_witness :
    (rejectRunning
        { initState with runningScripts := ["a"] } "a" = true ∧
      consoleFor
          (runScript { initState with runningScripts := ["a"] }
            ⟨"a", "A"⟩ ⟨[], .ret⟩) "a" =
        [⟨"W: Script is already running"⟩]) ∧
    (admits initState "a" = true ∧
      (consoleFor (runScript initState ⟨"a", "A"⟩ ⟨[], .ret⟩) "a").head? =
        some ⟨"Starting script: A"⟩) := by
  constructor
  · constructor
    · decide
    · have h :=
        ((runScript_admission_control
          { initState with runningScripts := ["a"] } ⟨"a", "A"⟩
          ⟨[], .ret⟩).1 (by decide)).1
      rw [h]
      decide
  · constructor
    · decide
    · exact ((runScript_admission_control initState ⟨"a", "A"⟩
        ⟨[], .ret⟩).2.2 (by decide)).1

/-- C3: outcome classification of an admitted run.  A body that returns
normally with no override call ends `success` with the success line logged;
one that called `fail("x")` (and never `skip`) ends `error` with an error
line containing `x`; one that called `skip("y")` (and never `fail`) ends
`skipped`; one that throws an `Error` with message `m` is caught by the
coordinator — `runScript` returns a state, nothing propagates — ends
`error`, and an error line containing `m` is logged. -/
theorem runScript_outcome_classification (st : CoordState) (s : Script)
    (hadm : admits st s.id = true) :
    (∀ acts, (∀ a ∈ acts, isOverrideAct a = false) →
      statusOf (runScript st s ⟨acts, .ret⟩) s.id = .success ∧
      (⟨"S: Script completed successfully"⟩ : ConsoleMessage) ∈
        consoleFor (runScript st s ⟨acts, .ret⟩) s.id) ∧
    (∀ acts x, (∀ a ∈ acts, isSkipAct a = false) →
      ScriptAction.fail (some x) ∈ acts →
      statusOf (runScript st s ⟨acts, .ret⟩) s.id = .error ∧
      ∃ pre suf, (⟨pre ++ x ++ suf⟩ : ConsoleMessage) ∈
        consoleFor (runScript st s ⟨acts, .ret⟩) s.id) ∧
    (∀ acts y, (∀ a ∈ acts, isFailAct a = false) →
      ScriptAction.skip (some y) ∈ acts →
      statusOf (runScript st s ⟨acts, .ret⟩) s.id = .skipped) ∧
    (∀ acts m,
      statusOf (runScript st s ⟨acts, .thrown m⟩) s.id = .error ∧
      ∃ pre suf, (⟨pre ++ m ++ suf⟩ : ConsoleMessage) ∈
        consoleFor (runScript st s ⟨acts, .thrown m⟩) s.id) := by
  obtain ⟨h1, h2⟩ := (admits_iff st s.id).mp hadm
  refine ⟨fun acts hno => ⟨?_, ?_⟩, fun acts x hns hf => ⟨?_, ?_⟩,
    fun acts y hnf hs => ?_, fun acts m => ⟨?_, ?_⟩⟩
  · rw [statusOf_runScript_admitted st s _ h1 h2]
    show classifiedStatus (acts.foldl overrideStep none) .ret = .success
    rw [foldl_overrideStep_pure acts none hno]
    rfl
  · rw [consoleFor_runScript_admitted st s _ h1 h2]
    show (⟨"S: Script completed successfully"⟩ : ConsoleMessage) ∈
      _ :: actionLogs acts ++
        [⟨classifiedLine (acts.foldl overrideStep none) .ret⟩]
    rw [foldl_overrideStep_pure acts none hno]
    simp [classifiedLine]
  · rw [statusOf_runScript_admitted st s _ h1 h2]
    show classifiedStatus (acts.foldl overrideStep none) .ret = .error
    rw [foldl_overrideStep_fail acts none hns x hf]
    rfl
  · refine ⟨"E: Failed: ", "", ?_⟩
    rw [consoleFor_runScript_admitted st s _ h1 h2]
    have hmem := mem_actionLogs_of_fail acts x hf
    simp only [List.cons_append, List.mem_cons, List.mem_append]
    right
    left
    have : ("E: Failed: " ++ x ++ "" : String) = "E: Failed: " ++ x := by
      simp
    rw [this]
    exact hmem
  · rw [statusOf_runScript_admitted st s _ h1 h2]
    show classifiedStatus (acts.foldl overrideStep none) .ret = .skipped
    rw [foldl_overrideStep_skip acts none hnf y hs]
    rfl
  · rw [statusOf_runScript_admitted st s _ h1 h2]
    rfl
  · refine ⟨"E: Error: ", "", ?_⟩
    rw [consoleFor_runScript_admitted st s _ h1 h2]
    have : ("E: Error: " ++ m ++ "" : String) = "E: Error: " ++ m := by
      simp
    rw [this]
    simp [classifiedLine]

/-- Witness for C3 at the empty state: the four outcome shapes on concrete
bodies. -/
theorem runScript_outcome_classification_witness :
    statusOf (runScript initState ⟨"a", "A"⟩ ⟨[], .ret⟩) "a" = .success ∧
    statusOf (runScript initState ⟨"a", "A"⟩
        ⟨[.fail (some "x")], .ret⟩) "a" = .error ∧
    statusOf (runScript initState ⟨"a", "A"⟩
        ⟨[.skip (some "y")], .ret⟩) "a" = .skipped ∧
    statusOf (runScript initState ⟨"a", "A"⟩ ⟨[], .thrown "boom"⟩) "a" =
      .error := by
  have h := runScript_outcome_classification initState ⟨"a", "A"⟩ (by decide)
  exact ⟨(h.1 [] (by decide)).1,
    (h.2.1 [.fail (some "x")] "x" (by decide) (by simp)).1,
    h.2.2.1 [.skip (some "y")] "y" (by decide) (by simp),
    (h.2.2.2 [] "boom").1⟩

/-- C4 counterexample: a script that calls `fail("x")` then `skip("y")`
and returns ends `skipped`, not `error` — the single override slot keeps
the later call, so `fail` is not classified before `skip`. -/
theorem override_fail_then_skip_counterexample :
    statusOf
        (runScript initState ⟨"alpha", "Alpha"⟩
          ⟨[.fail (some "x"), .skip (some "y")], .ret⟩) "alpha" =
      .skipped ∧
    ¬ statusOf
        (runScript initState ⟨"alpha", "Alpha"⟩
          ⟨[.fail (some "x"), .skip (some "y")], .ret⟩) "alpha" =
      .error := by
  decide

/-- C4 amended: when an admitted run returns normally, the final status
follows the *last* `skip`/`fail` call of the body (the override map holds a
single slot per id that each call overwrites): `error` when the last
override call was `fail`, `skipped` when it was `skip`. -/
theorem override_last_call_wins (st : CoordState) (s : Script)
    (hadm : admits st s.id = true) (l₁ l₂ : List ScriptAction)
    (hpure : ∀ a ∈ l₂, isOverrideAct a = false) :
    (∀ x, statusOf (runScript st s ⟨l₁ ++ .fail x :: l₂, .ret⟩) s.id =
      .error) ∧
    (∀ y, statusOf (runScript st s ⟨l₁ ++ .skip y :: l₂, .ret⟩) s.id =
      .skipped) := by
  obtain ⟨h1, h2⟩ := (admits_iff st s.id).mp hadm
  constructor
  · intro x
    rw [statusOf_runScript_admitted st s _ h1 h2]
    show classifiedStatus
      ((l₁ ++ .fail x :: l₂).foldl overrideStep none) .ret = .error
    rw [List.foldl_append, List.foldl_cons,
      foldl_overrideStep_pure l₂ _ hpure]
    rfl
  · intro y
    rw [statusOf_runScript_admitted st s _ h1 h2]
    show classifiedStatus
      ((l₁ ++ .skip y :: l₂).foldl overrideStep none) .ret = .skipped
    rw [List.foldl_append, List.foldl_cons,
      foldl_overrideStep_pure l₂ _ hpure]
    rfl

/-- Witness for the amended C4: `skip` then `fail` ends `error`, `fail`
then `skip` ends `skipped`. -/
theorem override_last_call_wins_witness :
    statusOf (runScript initState ⟨"a", "A"⟩
        ⟨[.skip (some "y"), .fail (some "x")], .ret⟩) "a" = .error ∧
    statusOf (runScript initState ⟨"a", "A"⟩
        ⟨[.fail (some "x"), .skip (some "y")], .ret⟩) "a" = .skipped := by
  have hf := override_last_call_wins initState ⟨"a", "A"⟩ (by decide)
    [.skip (some "y")] [] (by decide)
  have hs := override_last_call_wins initState ⟨"a", "A"⟩ (by decide)
    [.fail (some "x")] [] (by decide)
  exact ⟨hf.1 (some "x"), hs.2 (some "y")⟩

/-- C8: admission resets the script's console and makes
`Starting script: {name}` its first (and only) entry; consequently the
script `"hello"` whose body logs `I: hi` and returns ends `success` with
exactly the three entries, in order: the starting line, `I: hi`, and the
synthesized success line. -/
theorem run_start_resets_log (st : CoordState) :
    (∀ s : Script, consoleFor (admitEffects st s) s.id =
      [⟨"Starting script: " ++ s.name⟩]) ∧
    (admits st "hello" = true →
      statusOf (runScript st ⟨"hello", "Hello"⟩ ⟨[.log "I: hi"], .ret⟩)
          "hello" = .success ∧
      consoleFor (runScript st ⟨"hello", "Hello"⟩ ⟨[.log "I: hi"], .ret⟩)
          "hello" =
        [⟨"Starting script: Hello"⟩, ⟨"I: hi"⟩,
         ⟨"S: Script completed successfully"⟩]) := by
  refine ⟨fun s => consoleFor_admitEffects_self st s, fun hadm => ?_⟩
  obtain ⟨h1, h2⟩ := (admits_iff st "hello").mp hadm
  constructor
  · rw [statusOf_runScript_admitted st ⟨"hello", "Hello"⟩ _ h1 h2]
    rfl
  · rw [consoleFor_runScript_admitted st ⟨"hello", "Hello"⟩ _ h1 h2]
    rfl

/-- Witness for C8 on the empty state. -/
theorem run_start_resets_log_witness :
    statusOf (runScript initState ⟨"hello", "Hello"⟩
        ⟨[.log "I: hi"], .ret⟩) "hello" = .success ∧
    consoleFor (runScript initState ⟨"hello", "Hello"⟩
        ⟨[.log "I: hi"], .ret⟩) "hello" =
      [⟨"Starting script: Hello"⟩, ⟨"I: hi"⟩,
       ⟨"S: Script completed successfully"⟩] :=
  (run_start_resets_log initState).2 (by decide)

/-- C2: the `finally` cleanup is total.  Whatever state a run of `id`
settles in (any body, any result — normal return, throw, or overrides),
the settle step records an elapsed time for `id`, removes `id` from the
running set, clears a `PendingInput` and a `ProgressState` owned by `id`,
clears `id`'s override flag, and leaves a `PendingInput` or
`ProgressState` owned by a *different* script untouched. -/
theorem settle_cleanup_total (st : CoordState) (id : String) (r : RunState)
    (hr : mapGet st.activeRuns id = some r) (hdone : r.actions = []) :
    (mapGet (stepEvent st (.settle id)).executionTimes id).isSome = true ∧
    id ∉ (stepEvent st (.settle id)).runningScripts ∧
    (∀ p, (stepEvent st (.settle id)).pendingInput = some p →
      p.scriptId ≠ id) ∧
    (∀ pr, (stepEvent st (.settle id)).progressState = some pr →
      pr.scriptId ≠ id) ∧
    mapGet (stepEvent st (.settle id)).scriptStatusOverrides id = none ∧
    (∀ p, st.pendingInput = some p → p.scriptId ≠ id →
      (stepEvent st (.settle id)).pendingInput = some p) ∧
    (∀ pr, st.progressState = some pr → pr.scriptId ≠ id →
      (stepEvent st (.settle id)).progressState = some pr) := by
  have hstep : stepEvent st (.settle id) =
      { cleanup (classifyOutcome st id r.result) id r.startClock with
          activeRuns :=
            mapDelete
              (cleanup (classifyOutcome st id r.result) id
                r.startClock).activeRuns id } := by
    simp [stepEvent, hr, hdone]
  have hpendS : ∀ q, st.pendingInput = some q →
      (stepEvent st (.settle id)).pendingInput =
        if q.scriptId = id then none else some q := by
    intro q hq
    rw [hstep]
    show (cleanup (classifyOutcome st id r.result) id
      r.startClock).pendingInput = _
    rw [cleanup_pendingInput, classifyOutcome_pendingInput, hq]
  have hpendN : st.pendingInput = none →
      (stepEvent st (.settle id)).pendingInput = none := by
    intro hq
    rw [hstep]
    show (cleanup (classifyOutcome st id r.result) id
      r.startClock).pendingInput = _
    rw [cleanup_pendingInput, classifyOutcome_pendingInput, hq]
  have hprogS : ∀ q, st.progressState = some q →
      (stepEvent st (.settle id)).progressState =
        if q.scriptId = id then none else some q := by
    intro q hq
    rw [hstep]
    show (cleanup (classifyOutcome st id r.result) id
      r.startClock).progressState = _
    rw [cleanup_progressState, classifyOutcome_progressState, hq]
  have hprogN : st.progressState = none →
      (stepEvent st (.settle id)).progressState = none := by
    intro hq
    rw [hstep]
    show (cleanup (classifyOutcome st id r.result) id
      r.startClock).progressState = _
    rw [cleanup_progressState, classifyOutcome_progressState, hq]
  refine ⟨?_, ?_, ?_, ?_, ?_, ?_, ?_⟩
  · rw [hstep]
    show (mapGet
      (cleanup (classifyOutcome st id r.result) id
        r.startClock).executionTimes id).isSome = true
    rw [cleanup_executionTimes, mapGet_set, if_pos rfl]
    rfl
  · rw [hstep]
    show id ∉ setRemove
      (classifyOutcome st id r.result).runningScripts id
    rw [mem_setRemove]
    simp
  · intro p hp
    rcases hq : st.pendingInput with _ | q
    · rw [hpendN hq] at hp; cases hp
    · rw [hpendS q hq] at hp
      by_cases hqi : q.scriptId = id
      · rw [if_pos hqi] at hp; cases hp
      · rw [if_neg hqi] at hp
        cases hp
        exact hqi
  · intro pr hp
    rcases hq : st.progressState with _ | q
    · rw [hprogN hq] at hp; cases hp
    · rw [hprogS q hq] at hp
      by_cases hqi : q.scriptId = id
      · rw [if_pos hqi] at hp; cases hp
      · rw [if_neg hqi] at hp
        cases hp
        exact hqi
  · rw [hstep]
    show mapGet
      (cleanup (classifyOutcome st id r.result) id
        r.startClock).scriptStatusOverrides id = none
    rw [cleanup_overrides, mapGet_delete, if_pos rfl]
  · intro p hp hne
    rw [hpendS p hp, if_neg hne]
  · intro pr hp hne
    rw [hprogS pr hp, if_neg hne]

/-- Witness for C2: settling a just-admitted empty-bodied run of `"a"`
records a time and removes `"a"` from the running set. -/
theorem settle_cleanup_total_witness :
    (mapGet
        (stepEvent (reach initState [.runReq ⟨"a", "A"⟩ ⟨[], .ret⟩])
          (.settle "a")).executionTimes "a").isSome = true ∧
    "a" ∉ (stepEvent (reach initState [.runReq ⟨"a", "A"⟩ ⟨[], .ret⟩])
        (.settle "a")).runningScripts := by
  have h := settle_cleanup_total
    (reach initState [.runReq ⟨"a", "A"⟩ ⟨[], .ret⟩]) "a"
    ⟨0, [], .ret⟩ (by decide) rfl
  exact ⟨h.1, h.2.1⟩

/-- A reachable state in which script `"a"` has an open `select` prompt. -/
def selState : CoordState :=
  reach initState
    [.runReq ⟨"a", "A"⟩
      ⟨[.requestInput "pick one" .select [("One", "1")]], .ret⟩,
     .scriptStep "a"]

/-- C5 (divergence on `select`): at a reachable state with a pending
`select` prompt, `cancelInput` settles the promise with the boolean
`false`, not the empty string that `ScriptContext.select`'s documented
`Promise<string>` contract (and the spec) require — the source's
`resolve(type === 'input' ? '' : false)` only special-cases `input`.  The
remaining C5 behaviours (warning line, status back to `running`, pending
cleared, nothing thrown) do hold at this state. -/
theorem cancel_select_resolves_false :
    selState.pendingInput =
      some ⟨"a", "pick one", .select, [("One", "1")]⟩ ∧
    (cancelInput selState).2 = some (.bool false) ∧
    (cancelInput selState).2 ≠ some (.str "") ∧
    consoleFor (cancelInput selState).1 "a" =
      consoleFor selState "a" ++ [⟨"W: User cancelled input"⟩] ∧
    statusOf (cancelInput selState).1 "a" = .running ∧
    (cancelInput selState).1.pendingInput = none := by
  decide

/-- C7: the `context.progress` closure stores the percent clamped into `[0,100]`:
negative values as `0`, values above `100` as `100`, in-range values
unchanged; in particular `progress("loading", 150)` stores `100` and
`progress("loading", -5)` stores `0`. -/
theorem progress_clamps_percent (st : CoordState) (id msg : String)
    (p : Int) :
    (contextProgress st id msg p).progressState =
      some ⟨id, msg, min 100 (max 0 p)⟩ ∧
    (p < 0 → (contextProgress st id msg p).progressState =
      some ⟨id, msg, 0⟩) ∧
    (100 < p → (contextProgress st id msg p).progressState =
      some ⟨id, msg, 100⟩) ∧
    (0 ≤ p → p ≤ 100 → (contextProgress st id msg p).progressState =
      some ⟨id, msg, p⟩) ∧
    (contextProgress st id "loading" 150).progressState =
      some ⟨id, "loading", 100⟩ ∧
    (contextProgress st id "loading" (-5)).progressState =
      some ⟨id, "loading", 0⟩ := by
  refine ⟨rfl, fun h => ?_, fun h => ?_, fun h0 h100 => ?_, ?_, ?_⟩
  · have hc : min 100 (max 0 p) = 0 := by
      rw [max_eq_left h.le]
      decide
    rw [contextProgress_progressState, hc]
  · have hc : min 100 (max 0 p) = 100 := by
      rw [max_eq_right (by linarith : (0 : Int) ≤ p)]
      exact min_eq_left h.le
    rw [contextProgress_progressState, hc]
  · have hc : min 100 (max 0 p) = p := by
      rw [max_eq_right h0]
      exact min_eq_right h100
    rw [contextProgress_progressState, hc]
  · have hc : min 100 (max 0 (150 : Int)) = 100 := by decide
    rw [contextProgress_progressState, hc]
  · have hc : min 100 (max 0 (-5 : Int)) = 0 := by decide
    rw [contextProgress_progressState, hc]

/-- Witness for C7: the two concrete clamps of the claim plus an in-range
value. -/
theorem progress_clamps_percent_witness :
    (contextProgress initState "a" "loading" 150).progressState =
      some ⟨"a", "loading", 100⟩ ∧
    (contextProgress initState "a" "loading" (-5)).progressState =
      some ⟨"a", "loading", 0⟩ ∧
    (contextProgress initState "a" "m" 42).progressState =
      some ⟨"a", "m", 42⟩ := by
  have h := progress_clamps_percent initState "a" "m" 42
  exact ⟨h.2.2.2.2.1, h.2.2.2.2.2, h.2.2.2.1 (by decide) (by decide)⟩

/-- C10: with no pending input, `submitInput` (with or without a
value) and `cancelInput` return the state completely unchanged and settle
nothing. -/
theorem no_pending_noop (st : CoordState) (h : st.pendingInput = none) :
    (∀ v, submitInput st v = (st, none)) ∧ cancelInput st = (st, none) := by
  constructor
  · intro v
    simp [submitInput, h]
  · simp [cancelInput, h]

/-- Witness for C10 at the empty state. -/
theorem no_pending_noop_witness :
    submitInput initState (some "x") = (initState, none) ∧
    cancelInput initState = (initState, none) := by
  have h := no_pending_noop initState rfl
  exact ⟨h.1 (some "x"), h.2⟩

/-! ### C6: submit semantics -/

/-- The explicit shape of `submitInput` when a prompt is pending. -/
theorem submitInput_some (st : CoordState) (p : PendingInput)
    (hp : st.pendingInput = some p) (v : Option String) :
    submitInput st v =
      ({ (if p.kind = .input ∨ p.kind = .select then
            logMsg st p.scriptId
              (if v.getD st.inputValue = "" then "(empty)"
               else v.getD st.inputValue)
          else
            logMsg st p.scriptId
              (if strToLower (v.getD st.inputValue) == "yes" then "Yes"
               else "No")) with
          scriptStatuses :=
            mapSet
              (if p.kind = .input ∨ p.kind = .select then
                logMsg st p.scriptId
                  (if v.getD st.inputValue = "" then "(empty)"
                   else v.getD st.inputValue)
              else
                logMsg st p.scriptId
                  (if strToLower (v.getD st.inputValue) == "yes" then "Yes"
                   else "No")).scriptStatuses p.scriptId .running
          pendingInput := none
          inputValue := "" },
       some (if p.kind = .input ∨ p.kind = .select then
          SettledValue.str (v.getD st.inputValue)
        else
          SettledValue.bool (strToLower (v.getD st.inputValue) == "yes"))) := by
  simp only [submitInput, hp]

/-- C6: submitting a pending prompt resolves it with the effective
value (the explicit argument, else the typed field): for `input`/`select`
the literal string, logging exactly one response entry — `(empty)` when
the value is blank; for `confirm` the boolean of a case-insensitive
comparison with `"yes"`, logging `Yes`/`No`; then the script's status
reverts to `running` and the pending input is cleared. -/
theorem submit_settles_prompt (st : CoordState) (p : PendingInput)
    (hp : st.pendingInput = some p) (v : Option String) :
    ((p.kind = .input ∨ p.kind = .select) →
      (submitInput st v).2 =
        some (.str (v.getD st.inputValue)) ∧
      consoleFor (submitInput st v).1 p.scriptId =
        consoleFor st p.scriptId ++
          [⟨if v.getD st.inputValue = "" then "(empty)"
            else v.getD st.inputValue⟩]) ∧
    (p.kind = .confirm →
      (submitInput st v).2 =
        some (.bool (strToLower (v.getD st.inputValue) == "yes")) ∧
      consoleFor (submitInput st v).1 p.scriptId =
        consoleFor st p.scriptId ++
          [⟨if strToLower (v.getD st.inputValue) == "yes" then "Yes"
            else "No"⟩]) ∧
    statusOf (submitInput st v).1 p.scriptId = .running ∧
    (submitInput st v).1.pendingInput = none ∧
    (submitInput st v).1.inputValue = "" := by
  rw [submitInput_some st p hp v]
  refine ⟨fun hik => ⟨?_, ?_⟩, fun hc => ⟨?_, ?_⟩, ?_, ?_, ?_⟩
  · show some (if p.kind = .input ∨ p.kind = .select then
        SettledValue.str (v.getD st.inputValue)
      else SettledValue.bool (strToLower (v.getD st.inputValue) == "yes")) =
      some (.str (v.getD st.inputValue))
    rw [if_pos hik]
  · show consoleFor
      (if p.kind = .input ∨ p.kind = .select then
        logMsg st p.scriptId
          (if v.getD st.inputValue = "" then "(empty)"
           else v.getD st.inputValue)
      else
        logMsg st p.scriptId
          (if strToLower (v.getD st.inputValue) == "yes" then "Yes"
           else "No")) p.scriptId = _
    rw [if_pos hik, consoleFor_logMsg, if_pos rfl]
  · have hn : ¬ (p.kind = .input ∨ p.kind = .select) := by
      rw [hc]
      decide
    show some (if p.kind = .input ∨ p.kind = .select then
        SettledValue.str (v.getD st.inputValue)
      else SettledValue.bool (strToLower (v.getD st.inputValue) == "yes")) =
      some (.bool (strToLower (v.getD st.inputValue) == "yes"))
    rw [if_neg hn]
  · have hn : ¬ (p.kind = .input ∨ p.kind = .select) := by
      rw [hc]
      decide
    show consoleFor
      (if p.kind = .input ∨ p.kind = .select then
        logMsg st p.scriptId
          (if v.getD st.inputValue = "" then "(empty)"
           else v.getD st.inputValue)
      else
        logMsg st p.scriptId
          (if strToLower (v.getD st.inputValue) == "yes" then "Yes"
           else "No")) p.scriptId = _
    rw [if_neg hn, consoleFor_logMsg, if_pos rfl]
  · show (mapGet
      (mapSet _ p.scriptId ScriptStatus.running) p.scriptId).getD .idle =
      .running
    rw [mapGet_set, if_pos rfl]
    rfl
  · rfl
  · rfl

/-- A reachable state in which script `"a"` has an open `confirm` prompt. -/
def confState : CoordState :=
  reach initState
    [.runReq ⟨"a", "A"⟩ ⟨[.requestInput "sure?" .confirm []], .ret⟩,
     .scriptStep "a"]

/-- A reachable state in which script `"a"` has an open `input` prompt. -/
def inputState : CoordState :=
  reach initState
    [.runReq ⟨"a", "A"⟩ ⟨[.requestInput "name?" .input []], .ret⟩,
     .scriptStep "a"]

/-- Witness for C6 at reachable prompt states: case-insensitive confirm,
literal string resolution, the `(empty)` log, and the status/pending
reset. -/
theorem submit_settles_prompt_witness :
    (submitInput confState (some "YeS")).2 = some (.bool true) ∧
    (submitInput confState (some "nah")).2 = some (.bool false) ∧
    (submitInput inputState (some "Bob")).2 = some (.str "Bob") ∧
    consoleFor (submitInput inputState none).1 "a" =
      consoleFor inputState "a" ++ [⟨"(empty)"⟩] ∧
    statusOf (submitInput inputState (some "Bob")).1 "a" = .running ∧
    (submitInput inputState (some "Bob")).1.pendingInput = none := by
  have hy := submit_settles_prompt confState ⟨"a", "sure?", .confirm, []⟩
    (by decide) (some "YeS")
  have hn := submit_settles_prompt confState ⟨"a", "sure?", .confirm, []⟩
    (by decide) (some "nah")
  have hb := submit_settles_prompt inputState ⟨"a", "name?", .input, []⟩
    (by decide) (some "Bob")
  have he := submit_settles_prompt inputState ⟨"a", "name?", .input, []⟩
    (by decide) none
  refine ⟨?_, ?_, ?_, ?_, ?_, ?_⟩
  · rw [(hy.2.1 rfl).1]
    decide
  · rw [(hn.2.1 rfl).1]
    decide
  · exact (hb.1 (Or.inl rfl)).1
  · rw [(he.1 (Or.inl rfl)).2]
    decide
  · exact hb.2.2.1
  · exact hb.2.2.2.1

/-! ### C9: the pending-input ownership invariant over reachable states -/

theorem rejectRunning_true_iff (st : CoordState) (id : String) :
    rejectRunning st id = true ↔ id ∈ st.runningScripts := by
  rw [rejectRunning]
  exact List.elem_iff

theorem rejectOtherWaiting_false_pending (st : CoordState) (id : String)
    (h : rejectOtherWaiting st id = false) (p : PendingInput)
    (hp : st.pendingInput = some p) : p.scriptId = id := by
  rw [show rejectOtherWaiting st id =
      (p.scriptId != id) from by rw [rejectOtherWaiting, hp]] at h
  exact eq_of_beq (by simpa using h)

theorem submitInput_fst_pendingInput (st : CoordState) (v : Option String) :
    (submitInput st v).1.pendingInput = none := by
  rcases hp : st.pendingInput with _ | p
  · simp [submitInput, hp]
  · rw [submitInput_some st p hp v]

theorem submitInput_fst_runningScripts (st : CoordState)
    (v : Option String) :
    (submitInput st v).1.runningScripts = st.runningScripts := by
  rcases hp : st.pendingInput with _ | p
  · simp [submitInput, hp]
  · rw [submitInput_some st p hp v]
    show (if _ then logMsg st p.scriptId _
      else logMsg st p.scriptId _).runningScripts = st.runningScripts
    split_ifs <;> rfl

theorem submitInput_fst_activeRuns (st : CoordState) (v : Option String) :
    (submitInput st v).1.activeRuns = st.activeRuns := by
  rcases hp : st.pendingInput with _ | p
  · simp [submitInput, hp]
  · rw [submitInput_some st p hp v]
    show (if _ then logMsg st p.scriptId _
      else logMsg st p.scriptId _).activeRuns = st.activeRuns
    split_ifs <;> rfl

/-- The explicit shape of `cancelInput` when a prompt is pending. -/
theorem cancelInput_some (st : CoordState) (p : PendingInput)
    (hp : st.pendingInput = some p) :
    cancelInput st =
      ({ logMsg st p.scriptId "W: User cancelled input" with
          scriptStatuses :=
            mapSet
              (logMsg st p.scriptId
                "W: User cancelled input").scriptStatuses
              p.scriptId .running
          pendingInput := none
          inputValue := "" },
       some (if p.kind = .input then SettledValue.str ""
         else SettledValue.bool false)) := by
  simp only [cancelInput, hp]

theorem cancelInput_fst_pendingInput (st : CoordState) :
    (cancelInput st).1.pendingInput = none := by
  rcases hp : st.pendingInput with _ | p
  · simp [cancelInput, hp]
  · rw [cancelInput_some st p hp]

theorem cancelInput_fst_runningScripts (st : CoordState) :
    (cancelInput st).1.runningScripts = st.runningScripts := by
  rcases hp : st.pendingInput with _ | p
  · simp [cancelInput, hp]
  · rw [cancelInput_some st p hp]
    rfl

theorem cancelInput_fst_activeRuns (st : CoordState) :
    (cancelInput st).1.activeRuns = st.activeRuns := by
  rcases hp : st.pendingInput with _ | p
  · simp [cancelInput, hp]
  · rw [cancelInput_some st p hp]
    rfl

/-- The script that owns the pending input, when there is one, has status
`waiting` and is still in the running set. -/
def pendingOwnerInv (st : CoordState) : Prop :=
  ∀ p, st.pendingInput = some p →
    statusOf st p.scriptId = .waiting ∧ p.scriptId ∈ st.runningScripts

/-- Every in-flight run's id is in the running set. -/
def activeSubRunning (st : CoordState) : Prop :=
  ∀ id r, mapGet st.activeRuns id = some r → id ∈ st.runningScripts

/-- The inductive invariant of the event machine. -/
def machineInv (st : CoordState) : Prop :=
  pendingOwnerInv st ∧ activeSubRunning st

theorem machineInv_init : machineInv initState := by
  constructor
  · intro p hp
    cases hp
  · intro id r hr
    cases hr

/-- Invariance transfers along field-wise agreement. -/
theorem machineInv_of_fields (st st' : CoordState)
    (hpe : st'.pendingInput = st.pendingInput)
    (hss : st'.scriptStatuses = st.scriptStatuses)
    (hrun : st'.runningScripts = st.runningScripts)
    (hkeys : ∀ id r, mapGet st'.activeRuns id = some r →
      ∃ r', mapGet st.activeRuns id = some r')
    (h : machineInv st) : machineInv st' := by
  obtain ⟨hp, ha⟩ := h
  constructor
  · intro p hq
    rw [hpe] at hq
    obtain ⟨h1, h2⟩ := hp p hq
    constructor
    · show (mapGet st'.scriptStatuses p.scriptId).getD .idle = .waiting
      rw [hss]
      exact h1
    · rw [hrun]
      exact h2
  · intro id r hq
    rw [hrun]
    obtain ⟨r', hr'⟩ := hkeys id r hq
    exact ha id r' hr'

/-- Invariance when the step clears the pending input and preserves the
running set and the in-flight keys. -/
theorem machineInv_of_clear (st st' : CoordState)
    (hpe : st'.pendingInput = none)
    (hrun : st'.runningScripts = st.runningScripts)
    (hkeys : ∀ id r, mapGet st'.activeRuns id = some r →
      ∃ r', mapGet st.activeRuns id = some r')
    (h : machineInv st) : machineInv st' := by
  obtain ⟨hp, ha⟩ := h
  constructor
  · intro p hq
    rw [hpe] at hq
    cases hq
  · intro id r hq
    rw [hrun]
    obtain ⟨r', hr'⟩ := hkeys id r hq
    exact ha id r' hr'

/-- One step of the event machine preserves the invariant. -/
theorem machineInv_step (st : CoordState) (e : UEvent)
    (h : machineInv st) : machineInv (stepEvent st e) := by
  obtain ⟨hpend, hact⟩ := h
  cases e with
  | runReq s b =>
      cases h1 : rejectRunning st s.id with
      | true =>
          rw [show stepEvent st (.runReq s b) =
            logMsg st s.id "W: Script is already running" from by
              simp [stepEvent, h1]]
          exact machineInv_of_fields st _ rfl rfl rfl
            (fun j r hr => ⟨r, hr⟩) ⟨hpend, hact⟩
      | false =>
          cases h2 : rejectOtherWaiting st s.id with
          | true =>
              rw [show stepEvent st (.runReq s b) =
                logMsg st s.id "W: Another script is waiting for input"
                from by simp [stepEvent, h1, h2]]
              exact machineInv_of_fields st _ rfl rfl rfl
                (fun j r hr => ⟨r, hr⟩) ⟨hpend, hact⟩
          | false =>
              have hstep : stepEvent st (.runReq s b) =
                  { admitEffects st s with
                      activeRuns :=
                        mapSet (admitEffects st s).activeRuns s.id
                          ⟨st.clock, b.actions, b.result⟩ } := by
                simp [stepEvent, h1, h2]
              have hpnone : st.pendingInput = none := by
                rcases hq : st.pendingInput with _ | q
                · rfl
                · exfalso
                  have hqid := rejectOtherWaiting_false_pending st s.id h2
                    q hq
                  have hmem := (hpend q hq).2
                  rw [hqid] at hmem
                  have := (rejectRunning_true_iff st s.id).mpr hmem
                  rw [h1] at this
                  cases this
              rw [hstep]
              constructor
              · intro p hp
                have hp' : st.pendingInput = some p := by
                  rw [← admitEffects_pendingInput st s]
                  exact hp
                rw [hpnone] at hp'
                cases hp'
              · intro j r hr
                have hr' :
                    mapGet (mapSet st.activeRuns s.id
                      ⟨st.clock, b.actions, b.result⟩) j = some r := by
                  rw [← admitEffects_activeRuns st s]
                  exact hr
                rw [mapGet_set] at hr'
                show j ∈ setInsert st.runningScripts s.id
                rw [mem_setInsert]
                by_cases hj : j = s.id
                · exact Or.inr hj
                · rw [if_neg hj] at hr'
                  exact Or.inl (hact j r hr')
  | scriptStep id =>
      rcases hr : mapGet st.activeRuns id with _ | r
      · rw [show stepEvent st (.scriptStep id) = st from by
          simp [stepEvent, hr]]
        exact ⟨hpend, hact⟩
      · rcases hacts : r.actions with _ | ⟨a, rest⟩
        · rw [show stepEvent st (.scriptStep id) = st from by
            simp [stepEvent, hr, hacts]]
          exact ⟨hpend, hact⟩
        · have hstep : stepEvent st (.scriptStep id) =
              { runAction id st a with
                  activeRuns :=
                    mapSet (runAction id st a).activeRuns id
                      ⟨r.startClock, rest, r.result⟩ } := by
            simp [stepEvent, hr, hacts]
          rw [hstep]
          have hidrun : id ∈ st.runningScripts := hact id r hr
          have hkeys : ∀ j q,
              mapGet ({ runAction id st a with
                  activeRuns :=
                    mapSet (runAction id st a).activeRuns id
                      ⟨r.startClock, rest, r.result⟩ } :
                CoordState).activeRuns j = some q →
              ∃ q', mapGet st.activeRuns j = some q' := by
            intro j q hq
            have hq' : mapGet (mapSet (runAction id st a).activeRuns id
                ⟨r.startClock, rest, r.result⟩) j = some q := hq
            rw [runAction_activeRuns, mapGet_set] at hq'
            by_cases hj : j = id
            · rw [hj, hr]
              exact ⟨r, rfl⟩
            · rw [if_neg hj] at hq'
              exact ⟨q, hq'⟩
          cases a with
          | log m =>
              exact machineInv_of_fields st _ rfl rfl rfl hkeys
                ⟨hpend, hact⟩
          | progress m pc =>
              exact machineInv_of_fields st _ rfl rfl rfl hkeys
                ⟨hpend, hact⟩
          | skip rr =>
              exact machineInv_of_fields st _
                (contextSkip_pendingInput st id rr)
                (contextSkip_scriptStatuses st id rr)
                (contextSkip_runningScripts st id rr) hkeys
                ⟨hpend, hact⟩
          | fail rr =>
              exact machineInv_of_fields st _
                (contextFail_pendingInput st id rr)
                (contextFail_scriptStatuses st id rr)
                (contextFail_runningScripts st id rr) hkeys
                ⟨hpend, hact⟩
          | requestInput pr k o =>
              constructor
              · intro p hp
                have hp' : some (⟨id, pr, k, o⟩ : PendingInput) = some p :=
                  hp.symm ▸ rfl
                cases hp'
                constructor
                · show (mapGet (mapSet st.scriptStatuses id .waiting)
                    id).getD .idle = .waiting
                  rw [mapGet_set, if_pos rfl]
                  rfl
                · exact hidrun
              · intro j q hq
                obtain ⟨q', hq'⟩ := hkeys j q hq
                exact hact j q' hq'
  | settle id =>
      rcases hr : mapGet st.activeRuns id with _ | r
      · rw [show stepEvent st (.settle id) = st from by
          simp [stepEvent, hr]]
        exact ⟨hpend, hact⟩
      · by_cases hacts : r.actions = []
        · have hstep : stepEvent st (.settle id) =
              { cleanup (classifyOutcome st id r.result) id r.startClock
                  with
                  activeRuns :=
                    mapDelete
                      (cleanup (classifyOutcome st id r.result) id
                        r.startClock).activeRuns id } := by
            simp [stepEvent, hr, hacts]
          rw [hstep]
          constructor
          · intro p hp
            have hp' : (match st.pendingInput with
                | some q => if q.scriptId = id then none else some q
                | none => none) = some p := by
              rw [← classifyOutcome_pendingInput st id r.result]
              exact hp
            rcases hq : st.pendingInput with _ | q
            · rw [hq] at hp'
              exact absurd hp' (by simp)
            · rw [hq] at hp'
              have hp'' : (if q.scriptId = id then none else some q) =
                  some p := hp'
              by_cases hqi : q.scriptId = id
              · rw [if_pos hqi] at hp''
                cases hp''
              · rw [if_neg hqi] at hp''
                cases hp''
                obtain ⟨hw, hm⟩ := hpend p hq
                constructor
                · show (mapGet (cleanup (classifyOutcome st id r.result)
                    id r.startClock).scriptStatuses p.scriptId).getD
                      .idle = .waiting
                  rw [cleanup_scriptStatuses,
                    classifyOutcome_scriptStatuses, mapGet_set,
                    if_neg hqi]
                  exact hw
                · show p.scriptId ∈ setRemove
                    (classifyOutcome st id r.result).runningScripts id
                  rw [classifyOutcome_runningScripts, mem_setRemove]
                  exact ⟨hm, hqi⟩
          · intro j q hq
            have hq' : mapGet (mapDelete st.activeRuns id) j = some q := by
              rw [← classifyOutcome_activeRuns st id r.result]
              exact hq
            rw [mapGet_delete] at hq'
            by_cases hj : j = id
            · rw [if_pos hj] at hq'
              cases hq'
            · rw [if_neg hj] at hq'
              show j ∈ setRemove
                (classifyOutcome st id r.result).runningScripts id
              rw [classifyOutcome_runningScripts, mem_setRemove]
              exact ⟨hact j q hq', hj⟩
        · rw [show stepEvent st (.settle id) = st from by
            simp [stepEvent, hr, hacts]]
          exact ⟨hpend, hact⟩
  | submit v =>
      exact machineInv_of_clear st _ (submitInput_fst_pendingInput st v)
        (submitInput_fst_runningScripts st v)
        (fun j r hr => ⟨r, by
          rw [← submitInput_fst_activeRuns st v]
          exact hr⟩) ⟨hpend, hact⟩
  | cancel =>
      exact machineInv_of_clear st _ (cancelInput_fst_pendingInput st)
        (cancelInput_fst_runningScripts st)
        (fun j r hr => ⟨r, by
          rw [← cancelInput_fst_activeRuns st]
          exact hr⟩) ⟨hpend, hact⟩
  | typeInput s =>
      exact machineInv_of_fields st _ rfl rfl rfl
        (fun j r hr => ⟨r, hr⟩) ⟨hpend, hact⟩

theorem machineInv_reach (st : CoordState) (evs : List UEvent)
    (h : machineInv st) : machineInv (reach st evs) := by
  induction evs generalizing st with
  | nil => exact h
  | cons e rest ih => exact ih (stepEvent st e) (machineInv_step st e h)

/-- C9 counterexample: two scripts admitted concurrently (neither
waiting at admission time) can both issue prompts; then both have status
`waiting` while `PendingInput` names only the second — the waiting script
is not unique, and the pending input does not determine it. -/
theorem pending_owner_not_unique_counterexample :
    (reach initState
        [.runReq ⟨"a", "A"⟩ ⟨[.requestInput "pa" .input []], .ret⟩,
         .runReq ⟨"b", "B"⟩ ⟨[.requestInput "pb" .input []], .ret⟩,
         .scriptStep "a", .scriptStep "b"]).pendingInput =
      some ⟨"b", "pb", .input, []⟩ ∧
    statusOf (reach initState
        [.runReq ⟨"a", "A"⟩ ⟨[.requestInput "pa" .input []], .ret⟩,
         .runReq ⟨"b", "B"⟩ ⟨[.requestInput "pb" .input []], .ret⟩,
         .scriptStep "a", .scriptStep "b"]) "a" = .waiting ∧
    statusOf (reach initState
        [.runReq ⟨"a", "A"⟩ ⟨[.requestInput "pa" .input []], .ret⟩,
         .runReq ⟨"b", "B"⟩ ⟨[.requestInput "pb" .input []], .ret⟩,
         .scriptStep "a", .scriptStep "b"]) "b" = .waiting ∧
    ("a" : String) ≠ "b" := by
  decide

/-- C9 amended: in every state reachable from the initial one by UI
events, whenever `PendingInput` is non-null the script it names has
status `waiting` (that script need not be the only waiting one). -/
theorem pending_owner_waiting (evs : List UEvent) (p : PendingInput)
    (hp : (reach initState evs).pendingInput = some p) :
    statusOf (reach initState evs) p.scriptId = .waiting :=
  ((machineInv_reach initState evs machineInv_init).1 p hp).1

/-- Witness for the amended C9 on a concrete reachable state. -/
theorem pending_owner_waiting_witness :
    statusOf (reach initState
        [.runReq ⟨"a", "A"⟩ ⟨[.requestInput "pa" .input []], .ret⟩,
         .scriptStep "a"]) "a" = .waiting :=
  pending_owner_waiting
    [.runReq ⟨"a", "A"⟩ ⟨[.requestInput "pa" .input []], .ret⟩,
     .scriptStep "a"] ⟨"a", "pa", .input, []⟩ (by decide)

end UserScripts
